import Mathlib

/-!
Verification of the ironminer construction-processor frame pipeline.

The definitions below are a shallow embedding of
`src/construction-processor/processor/pipeline.py` (the orchestrator `run`)
and `src/construction-processor/processor/stages/detection.py`
(`DetectionStage`).  The other stage classes (`TrackingStage`,
`SpatialStage`, `VLMStage`), the configuration module and `file_io` are not
part of the sources; they are represented abstractly (arbitrary stage
functions with explicit state threading) or, where a claim depends on their
behaviour, modelled from the specification and flagged as such in doc
comments.

Numbers that are Python floats are modelled as rationals (`ℚ`); Python
dictionaries with possibly-missing keys are modelled as structures with
`Option` fields, `dict.get(k, d)` becoming `Option.getD`.
-/

/-- A raw detection dictionary as built by `DetectionStage.run`:
keys `class_id`, `class_name`, `bbox` (x1, y1, x2, y2) and `confidence`. -/
structure Detection where
  classId : Int
  className : String
  bbox : ℚ × ℚ × ℚ × ℚ
  confidence : ℚ
deriving DecidableEq, Repr

/-- A track dictionary as consumed by the orchestrator's CSV/writer code
(`pipeline.py` lines 114-131).  Every key the orchestrator reads with
`tr.get(...)` is an `Option` field; a `none` models a missing key. -/
structure Track where
  objectId : Option String
  className : Option String
  bbox : Option (ℚ × ℚ × ℚ × ℚ)
  xM : Option ℚ
  yM : Option ℚ
  vxMps : Option ℚ
  vyMps : Option ℚ
  inZone : Option String
  hardhat : Option String
  vest : Option String
deriving DecidableEq, Repr

/-- An event dictionary as consumed by the orchestrator's tallying code
(`pipeline.py` lines 91-112): key `type` plus the payload keys the
orchestrator reads (`severity`, `zone`, `hardhat`, `vest`), and the frame
index and timestamp the spec requires every event to carry. -/
structure Event where
  etype : String
  severity : Option String
  zone : Option String
  hardhat : Option String
  vest : Option String
  frame : ℕ
  ts : ℚ
deriving DecidableEq, Repr

/-!
## DetectionStage (`stages/detection.py`)
-/

/-- Python list indexing `xs[i]` for `i : Int`: non-negative indices are
looked up directly, negative indices address from the end
(`xs[i]` is `xs[len + i]`), and an out-of-range index raises `IndexError`. -/
def pyIndex (xs : List String) (i : Int) : Except String String :=
  if 0 ≤ i then
    match xs.get? i.toNat with
    | some v => Except.ok v
    | none => Except.error "IndexError: list index out of range"
  else
    let j : Int := (xs.length : Int) + i
    if 0 ≤ j then
      match xs.get? j.toNat with
      | some v => Except.ok v
      | none => Except.error "IndexError: list index out of range"
    else Except.error "IndexError: list index out of range"

/-- `DetectionStage._cls_id_to_name` (detection.py lines 84-91):
`person` for class id 0, `self.class_names[cls_id]` when
`cls_id < len(self.class_names)` (Python indexing, so negative ids index
from the end and may raise), and `unknown` otherwise. -/
def clsIdToName (classNames : List String) (clsId : Int) : Except String String :=
  if clsId = 0 then Except.ok "person"
  else if clsId < (classNames.length : Int) then pyIndex classNames clsId
  else Except.ok "unknown"

/-- The `self._model` slot of `DetectionStage` after `_load_model` assigned
it: either a real model handle or the string sentinel `"placeholder"`. -/
inductive ModelSlot (M : Type) where
  | real (m : M)
  | placeholder
deriving DecidableEq, Repr

/-- `DetectionStage._load_model` (detection.py lines 31-50).  `attempt`
represents the outcome of `from ultralytics import RTDETR; RTDETR(...)`,
fixed for the whole run by the environment.  Returns the new `_model` slot
together with the number of warnings logged by this call (1 exactly when
the load was attempted and failed). -/
def loadModel (M : Type) (attempt : Except String M) (st : Option (ModelSlot M)) :
    Option (ModelSlot M) × ℕ :=
  match st with
  | some m => (some m, 0)
  | none =>
    match attempt with
    | Except.ok m => (some (ModelSlot.real m), 0)
    | Except.error _ => (some ModelSlot.placeholder, 1)

/-- A raw box of a model prediction result: class id, bbox, confidence. -/
structure RawBox where
  clsId : Int
  bbox : ℚ × ℚ × ℚ × ℚ
  conf : ℚ
deriving DecidableEq, Repr

/-- `DetectionStage.run` (detection.py lines 52-82) for one call:
returns `[]` immediately on a skipped frame, lazily loads the model,
returns `[]` when the model is the placeholder, and otherwise converts the
prediction's boxes to detection dictionaries via `_cls_id_to_name` (which
can raise, propagated here as `Except.error`).  The result also carries
the updated `_model` slot and the number of warnings this call logged. -/
def detectionRun (M φ : Type) (attempt : Except String M)
    (predict : M → φ → List RawBox) (frameSkip : ℕ) (classNames : List String)
    (frame : φ) (frameIndex : ℕ) (st : Option (ModelSlot M)) :
    Except String (List Detection × Option (ModelSlot M) × ℕ) :=
  if frameIndex % frameSkip ≠ 0 then Except.ok ([], st, 0)
  else
    let lm := loadModel M attempt st
    match lm.1 with
    | some ModelSlot.placeholder => Except.ok ([], lm.1, lm.2)
    | some (ModelSlot.real m) =>
      ((predict m frame).mapM fun r =>
          (clsIdToName classNames r.clsId).map fun nm =>
            Detection.mk r.clsId nm r.bbox r.conf).map
        fun dets => (dets, lm.1, lm.2)
    | none => Except.ok ([], lm.1, lm.2)

/-- A whole run's worth of `DetectionStage.run` calls, in order: threads the
`_model` slot through and accumulates each call's detection list and the
total number of warnings logged. -/
def detectionRunSeq (M φ : Type) (attempt : Except String M)
    (predict : M → φ → List RawBox) (frameSkip : ℕ) (classNames : List String) :
    List (φ × ℕ) → Option (ModelSlot M) →
    Except String (List (List Detection) × Option (ModelSlot M) × ℕ)
  | [], st => Except.ok ([], st, 0)
  | c :: cs, st =>
    match detectionRun M φ attempt predict frameSkip classNames c.1 c.2 st with
    | Except.error e => Except.error e
    | Except.ok (dets, st', w) =>
      match detectionRunSeq M φ attempt predict frameSkip classNames cs st' with
      | Except.error e => Except.error e
      | Except.ok (rest, st'', w') => Except.ok (dets :: rest, st'', w + w')

/-!
## Orchestrator (`pipeline.py`)
-/

/-- The `stats` dictionary of `pipeline.run` (lines 56-65).  The
`zone_violations` sub-dictionary is modelled as a total function defaulting
to 0, matching `dict.get(zn)` on absent keys followed by `+ 1` insertion. -/
structure Stats where
  proximityWarnings : ℕ
  proximityCritical : ℕ
  ttcWarnings : ℕ
  hardhatYes : ℕ
  hardhatTotal : ℕ
  vestYes : ℕ
  vestTotal : ℕ
  zoneViolations : String → ℕ

/-- The initial `stats` dictionary: all counters zero, no zone keys. -/
def initStats : Stats :=
  ⟨0, 0, 0, 0, 0, 0, 0, fun _ => 0⟩

/-- The per-spatial-event stats update (pipeline.py lines 93-102): a
`proximity_alert` bumps `proximity_warnings` when its severity is
`warning` and `proximity_critical` otherwise; a `ttc_warning` bumps
`ttc_warnings`; a `zone_entry` bumps `zone_violations[e.get("zone",
"unknown")]`; any other type leaves the stats unchanged. -/
def updStatsSpatial (st : Stats) (e : Event) : Stats :=
  if e.etype = "proximity_alert" then
    if e.severity = some "warning" then
      { st with proximityWarnings := st.proximityWarnings + 1 }
    else
      { st with proximityCritical := st.proximityCritical + 1 }
  else if e.etype = "ttc_warning" then
    { st with ttcWarnings := st.ttcWarnings + 1 }
  else if e.etype = "zone_entry" then
    { st with zoneViolations := fun z =>
        if z = e.zone.getD "unknown" then st.zoneViolations z + 1
        else st.zoneViolations z }
  else st

/-- The per-PPE-event stats update (pipeline.py lines 105-112): every PPE
event bumps both totals, and the `yes` counters when the corresponding
field equals `YES`. -/
def updStatsPpe (st : Stats) (e : Event) : Stats :=
  { st with
    hardhatTotal := st.hardhatTotal + 1
    vestTotal := st.vestTotal + 1
    hardhatYes := if e.hardhat = some "YES" then st.hardhatYes + 1 else st.hardhatYes
    vestYes := if e.vest = some "YES" then st.vestYes + 1 else st.vestYes }

/-- One row of `object_log.csv` (pipeline.py lines 116-131).  String cells
hold the `tr.get` defaults when the key is absent; the optional rational
cells are written as the empty string when `none`. -/
structure CsvRow where
  frame : ℕ
  objectId : String
  className : String
  xPx : ℚ
  yPx : ℚ
  wPx : ℚ
  hPx : ℚ
  xM : Option ℚ
  yM : Option ℚ
  vxMps : Option ℚ
  vyMps : Option ℚ
  inZone : String
  hardhat : String
  vest : String
deriving DecidableEq, Repr

/-- Builds the CSV row for one track on one frame (pipeline.py lines
114-131): bbox defaults to `[0, 0, 0, 0]`, width and height are derived
from the bbox corners, string fields default to `""` and the compliance
flags default to `"NA"`. -/
def csvRow (frameIndex : ℕ) (tr : Track) : CsvRow :=
  let bbox := tr.bbox.getD (0, 0, 0, 0)
  { frame := frameIndex
    objectId := tr.objectId.getD ""
    className := tr.className.getD ""
    xPx := bbox.1
    yPx := bbox.2.1
    wPx := bbox.2.2.1 - bbox.1
    hPx := bbox.2.2.2 - bbox.2.1
    xM := tr.xM
    yM := tr.yM
    vxMps := tr.vxMps
    vyMps := tr.vyMps
    inZone := tr.inZone.getD ""
    hardhat := tr.hardhat.getD "NA"
    vest := tr.vest.getD "NA" }

/-- The four stage objects held by the orchestrator, with their combined
mutable internal state of type `S` threaded explicitly.  `TrackingStage`,
`SpatialStage` and `VLMStage` are not part of the sources, so their `run`
methods are arbitrary functions of the arguments `pipeline.run` passes
them (pipeline.py lines 78, 85, 90, 104); `φ` is the pixel-buffer type. -/
structure Stages (φ S : Type) where
  detect : φ → ℕ → S → List Detection × S
  track : List Detection → φ → ℕ → S → List Track × S
  spatial : List Track → ℕ → ℚ → S → (List Track × List Event) × S
  vlm : List Track → φ → ℕ → List Event → S → (List Track × List Event) × S

/-- Observable record of one iteration of the frame loop: which stages ran,
with which inputs, the cache contents on entry, and the frame's outputs. -/
structure FrameTrace where
  index : ℕ
  detectorInvoked : Bool
  trackerInvoked : Bool
  detectionsUsed : List Detection
  tracksUsed : List Track
  cacheDetBefore : List Detection
  cacheTracksBefore : List Track
  spatialEvents : List Event
  ppeEvents : List Event
  vlmTracks : List Track

/-- The orchestrator's loop state (pipeline.py lines 56-69): the stage
objects' internal state, the `last_detections` / `last_tracks` caches, the
accumulated writer contents (`events_writer`, `csv_logger`), the `stats`
dictionary, the `frame_index` counter, and the per-frame traces. -/
structure RunState (S : Type) where
  stageState : S
  lastDetections : List Detection
  lastTracks : List Track
  events : List Event
  rows : List CsvRow
  stats : Stats
  nextIndex : ℕ
  traces : List FrameTrace

/-- The orchestrator's state just before the frame loop. -/
def initState (S : Type) (s0 : S) : RunState S :=
  ⟨s0, [], [], [], [], initStats, 0, []⟩

/-- Result of the detection phase of one iteration (pipeline.py lines
76-82): the `detections` local, the stage state, whether
`detection.run` was invoked, and the new `last_detections` cache
(overwritten only when the fresh result is non-empty, line 79-80). -/
structure DetPhase (S : Type) where
  dets : List Detection
  s : S
  invoked : Bool
  cache : List Detection

/-- Detection phase (pipeline.py lines 76-82): invoke the detector exactly
when `frame_index % FRAME_SKIP == 0`, otherwise reuse `last_detections`. -/
def detPhase (φ S : Type) (P : Stages φ S) (frameSkip : ℕ) (st : RunState S)
    (frame : φ) (i : ℕ) : DetPhase S :=
  if i % frameSkip = 0 then
    let dr := P.detect frame i st.stageState
    ⟨dr.1, dr.2, true, if dr.1.isEmpty then st.lastDetections else dr.1⟩
  else
    ⟨st.lastDetections, st.stageState, false, st.lastDetections⟩

/-- Result of the tracking phase of one iteration (pipeline.py lines
84-88): the `tracks` local, the stage state, whether `tracking.run` was
invoked, and the new `last_tracks` cache. -/
structure TrackPhase (S : Type) where
  tracks : List Track
  s : S
  invoked : Bool
  cache : List Track

/-- Tracking phase (pipeline.py lines 84-88): invoke the tracker exactly
when the `detections` local is non-empty, otherwise reuse `last_tracks`. -/
def trackPhase (φ S : Type) (P : Stages φ S) (d : DetPhase S)
    (lastTracks : List Track) (frame : φ) (i : ℕ) : TrackPhase S :=
  if d.dets.isEmpty then
    ⟨lastTracks, d.s, false, lastTracks⟩
  else
    let tr := P.track d.dets frame i d.s
    ⟨tr.1, tr.2, true, tr.1⟩

/-- One iteration of the frame loop (pipeline.py lines 71-134): detection
with the skip/reuse policy, tracking with the non-empty guard, the spatial
stage (always invoked), event tallying, the VLM stage (always invoked),
PPE tallying, one CSV row per VLM track, and the frame-index increment. -/
def processFrame (φ S : Type) (P : Stages φ S) (frameSkip : ℕ) (fps : ℚ)
    (st : RunState S) (frame : φ) : RunState S :=
  let i := st.nextIndex
  let ts : ℚ := (i : ℚ) / fps
  let d := detPhase φ S P frameSkip st frame i
  let t := trackPhase φ S P d st.lastTracks frame i
  let sp := P.spatial t.tracks i ts t.s
  let spatialTracks := sp.1.1
  let spatialEvents := sp.1.2
  let stats1 := spatialEvents.foldl updStatsSpatial st.stats
  let v := P.vlm spatialTracks frame i spatialEvents sp.2
  let vlmTracks := v.1.1
  let ppeEvents := v.1.2
  let stats2 := ppeEvents.foldl updStatsPpe stats1
  { stageState := v.2
    lastDetections := d.cache
    lastTracks := t.cache
    events := st.events ++ spatialEvents ++ ppeEvents
    rows := st.rows ++ vlmTracks.map (csvRow i)
    stats := stats2
    nextIndex := i + 1
    traces := st.traces ++
      [⟨i, d.invoked, t.invoked, d.dets, t.tracks, st.lastDetections,
        st.lastTracks, spatialEvents, ppeEvents, vlmTracks⟩] }

/-- The frame loop of `pipeline.run` (lines 71-137), one iteration per
frame read from the capture, in order. -/
def runLoop (φ S : Type) (P : Stages φ S) (frameSkip : ℕ) (fps : ℚ) :
    List φ → RunState S → RunState S
  | [], st => st
  | f :: fs, st => runLoop φ S P frameSkip fps fs (processFrame φ S P frameSkip fps st f)

/-- The stage objects again, but with each `run` method allowed to raise a
Python exception, modelled as `Except.error`; `pipeline.run` wraps none of
these calls in a `try`/`except`. -/
structure StagesE (φ S : Type) where
  detect : φ → ℕ → S → Except String (List Detection × S)
  track : List Detection → φ → ℕ → S → Except String (List Track × S)
  spatial : List Track → ℕ → ℚ → S → Except String ((List Track × List Event) × S)
  vlm : List Track → φ → ℕ → List Event → S → Except String ((List Track × List Event) × S)

/-- One iteration of the frame loop with fallible stages.  The loop body
(pipeline.py lines 75-134) contains no `try`/`except`, so the first stage
exception leaves the loop state as already written (events added by line
92 stay added) and escapes; the result pairs the state reached with
`some` exception message, or `none` when the iteration completed. -/
def processFrameE (φ S : Type) (P : StagesE φ S) (frameSkip : ℕ) (fps : ℚ)
    (st : RunState S) (frame : φ) : RunState S × Option String :=
  let i := st.nextIndex
  let ts : ℚ := (i : ℚ) / fps
  match
    (if i % frameSkip = 0 then
      (P.detect frame i st.stageState).map fun dr =>
        DetPhase.mk dr.1 dr.2 true (if dr.1.isEmpty then st.lastDetections else dr.1)
    else
      Except.ok ⟨st.lastDetections, st.stageState, false, st.lastDetections⟩) with
  | Except.error e => (st, some e)
  | Except.ok d =>
  match
    (if d.dets.isEmpty then
      Except.ok (TrackPhase.mk st.lastTracks d.s false st.lastTracks)
    else
      (P.track d.dets frame i d.s).map fun tr => TrackPhase.mk tr.1 tr.2 true tr.1) with
  | Except.error e => (st, some e)
  | Except.ok t =>
  match P.spatial t.tracks i ts t.s with
  | Except.error e => (st, some e)
  | Except.ok sp =>
    let spatialEvents := sp.1.2
    let st1 := { st with
      events := st.events ++ spatialEvents
      stats := spatialEvents.foldl updStatsSpatial st.stats }
    match P.vlm sp.1.1 frame i spatialEvents sp.2 with
    | Except.error e => (st1, some e)
    | Except.ok v =>
      let vlmTracks := v.1.1
      let ppeEvents := v.1.2
      ({ stageState := v.2
         lastDetections := d.cache
         lastTracks := t.cache
         events := st1.events ++ ppeEvents
         rows := st.rows ++ vlmTracks.map (csvRow i)
         stats := ppeEvents.foldl updStatsPpe st1.stats
         nextIndex := i + 1
         traces := st.traces ++
           [⟨i, d.invoked, t.invoked, d.dets, t.tracks, st.lastDetections,
             st.lastTracks, spatialEvents, ppeEvents, vlmTracks⟩] }, none)

/-- The frame loop with fallible stages: iterations run in order until the
first uncaught stage exception, which aborts the loop and propagates. -/
def runLoopE (φ S : Type) (P : StagesE φ S) (frameSkip : ℕ) (fps : ℚ) :
    List φ → RunState S → RunState S × Option String
  | [], st => (st, none)
  | f :: fs, st =>
    match processFrameE φ S P frameSkip fps st f with
    | (st', none) => runLoopE φ S P frameSkip fps fs st'
    | (st', some e) => (st', some e)

/-- The `summary.txt` contents set at run end (pipeline.py lines 143-154):
the final `frame_index`, the wall-clock duration, and the counters. -/
structure RunSummary where
  totalFrames : ℕ
  durationSec : ℚ
  proximityWarnings : ℕ
  proximityCritical : ℕ
  ttcWarnings : ℕ
  hardhatYes : ℕ
  hardhatTotal : ℕ
  vestYes : ℕ
  vestTotal : ℕ
  zoneViolations : String → ℕ

/-- Builds the run summary from the final loop state (pipeline.py lines
143-154). -/
def mkSummary (totalFrames : ℕ) (durationSec : ℚ) (st : Stats) : RunSummary :=
  ⟨totalFrames, durationSec, st.proximityWarnings, st.proximityCritical,
    st.ttcWarnings, st.hardhatYes, st.hardhatTotal, st.vestYes, st.vestTotal,
    st.zoneViolations⟩

/-- The counter fields of a summary (everything except the wall-clock
duration bookkeeping). -/
def summaryCounters (s : RunSummary) :
    ℕ × ℕ × ℕ × ℕ × ℕ × ℕ × ℕ × ℕ × (String → ℕ) :=
  (s.totalFrames, s.proximityWarnings, s.proximityCritical, s.ttcWarnings,
    s.hardhatYes, s.hardhatTotal, s.vestYes, s.vestTotal, s.zoneViolations)

/-- The video capture's metadata and decoded frames: what `cv2.VideoCapture`
provides to `pipeline.run` when the file opens successfully. -/
structure VideoInfo (φ : Type) where
  fps : ℚ
  frames : List φ

/-- The whole of `pipeline.run` (lines 26-160).

Modelled from the spec: `file_io.load_calibration` and `file_io.load_zones`
are not part of the sources; per the spec a bad or missing calibration or
zones file is fatal, so each load outcome is an `Except` input, consumed in
source order (calibration, then zones, then the video open at lines 35-39,
which raises `RuntimeError` when the capture cannot be opened).  `cv2`
decoding and wall-clock time are likewise environment inputs: `video` is
the open outcome, and `startTime` / `endTime` are the two `time.time()`
readings.  A falsy fps (0) falls back to 30.0 as in line 40.  The result
pairs the `Except` outcome of the call with the loop state reached, which
holds everything the writers received. -/
def pipelineRun (φ S C Z : Type) (calib : Except String C) (zones : Except String Z)
    (video : Except String (VideoInfo φ)) (P : Stages φ S) (s0 : S)
    (frameSkip : ℕ) (startTime endTime : ℚ) :
    Except String RunSummary × RunState S :=
  match calib with
  | Except.error e => (Except.error e, initState S s0)
  | Except.ok _ =>
  match zones with
  | Except.error e => (Except.error e, initState S s0)
  | Except.ok _ =>
  match video with
  | Except.error e => (Except.error e, initState S s0)
  | Except.ok v =>
    let fps : ℚ := if v.fps = 0 then 30 else v.fps
    let fin := runLoop φ S P frameSkip fps v.frames (initState S s0)
    (Except.ok (mkSummary fin.nextIndex (endTime - startTime) fin.stats), fin)

/-!
## Theorems
-/

theorem runLoop_inv (φ S : Type) (P : Stages φ S) (k : ℕ) (q : ℚ)
    (Inv : RunState S → Prop)
    (step : ∀ st f, Inv st → Inv (processFrame φ S P k q st f)) :
    ∀ (fs : List φ) (st : RunState S), Inv st → Inv (runLoop φ S P k q fs st) := by
  intro fs
  induction fs with
  | nil => intro st h; exact h
  | cons f fs ih => intro st h; exact ih _ (step st f h)

theorem runLoop_nextIndex (φ S : Type) (P : Stages φ S) (k : ℕ) (q : ℚ) :
    ∀ (fs : List φ) (st : RunState S),
      (runLoop φ S P k q fs st).nextIndex = st.nextIndex + fs.length := by
  intro fs
  induction fs with
  | nil => intro st; simp [runLoop]
  | cons f fs ih =>
    intro st
    rw [runLoop, ih]
    simp [processFrame]
    omega

theorem pyIndex_ok (xs : List String) (i : Int) (h0 : 0 ≤ i)
    (hlt : i < (xs.length : Int)) :
    pyIndex xs i = Except.ok (xs.getD i.toNat "") := by
  have hn : i.toNat < xs.length := by omega
  have hg : xs.get? i.toNat = some (xs.get ⟨i.toNat, hn⟩) := List.get?_eq_get hn
  unfold pyIndex
  rw [if_pos h0, hg]
  simp [List.getD_eq_getElem?_getD, List.getElem?_eq_getElem hn, List.get_eq_getElem]

/-- C10 (counterexample): at class id `-2` with a one-element class
vocabulary, `cls_id < len(class_names)` holds (`-2 < 1`), so the method
evaluates `self.class_names[-2]`, which raises `IndexError` in Python —
the method is not total on all integers. -/
theorem cls_id_to_name_negative_cex :
    clsIdToName ["hat"] (-2) = Except.error "IndexError: list index out of range" := by
  rfl

/-- C10 (amended): `DetectionStage._cls_id_to_name` is total on every
non-negative class id: it returns `person` for id 0, the configured class
name for ids strictly between 0 and `len(class_names)`, and `unknown` for
every id greater than or equal to `len(class_names)`. -/
theorem cls_id_to_name_nonneg_total (classNames : List String) (clsId : Int)
    (h0 : 0 ≤ clsId) :
    (∃ s, clsIdToName classNames clsId = Except.ok s) ∧
    (clsId = 0 → clsIdToName classNames clsId = Except.ok "person") ∧
    (0 < clsId → clsId < (classNames.length : Int) →
      clsIdToName classNames clsId = Except.ok (classNames.getD clsId.toNat "")) ∧
    (0 < clsId → (classNames.length : Int) ≤ clsId →
      clsIdToName classNames clsId = Except.ok "unknown") := by
  refine ⟨?_, ?_, ?_, ?_⟩
  · by_cases hz : clsId = 0
    · exact ⟨"person", by simp [clsIdToName, hz]⟩
    · by_cases hlt : clsId < (classNames.length : Int)
      · exact ⟨classNames.getD clsId.toNat "",
          by rw [clsIdToName, if_neg hz, if_pos hlt, pyIndex_ok classNames clsId h0 hlt]⟩
      · exact ⟨"unknown", by rw [clsIdToName, if_neg hz, if_neg hlt]⟩
  · intro hz; simp [clsIdToName, hz]
  · intro hpos hlt
    have hz : clsId ≠ 0 := by omega
    rw [clsIdToName, if_neg hz, if_pos hlt, pyIndex_ok classNames clsId h0 hlt]
  · intro hpos hge
    have hz : clsId ≠ 0 := by omega
    have hlt : ¬ clsId < (classNames.length : Int) := by omega
    rw [clsIdToName, if_neg hz, if_neg hlt]

/-- C10 (witness): the amended theorem evaluated at the vocabulary
`["a", "b"]` and id 1. -/
theorem cls_id_to_name_nonneg_total_w :
    (0 : Int) ≤ 1 ∧ clsIdToName ["a", "b"] 1 = Except.ok "b" := by
  refine ⟨by decide, ?_⟩
  have h := (cls_id_to_name_nonneg_total ["a", "b"] 1 (by decide)).2.2.1
    (by decide) (by decide)
  simpa using h

theorem detectionRun_placeholder (M φ : Type) (attempt : Except String M)
    (predict : M → φ → List RawBox) (frameSkip : ℕ) (classNames : List String)
    (frame : φ) (i : ℕ) :
    detectionRun M φ attempt predict frameSkip classNames frame i
        (some ModelSlot.placeholder) =
      Except.ok ([], some ModelSlot.placeholder, 0) := by
  unfold detectionRun
  split
  · rfl
  · rfl

theorem detectionRunSeq_placeholder (M φ : Type) (attempt : Except String M)
    (predict : M → φ → List RawBox) (frameSkip : ℕ) (classNames : List String) :
    ∀ calls : List (φ × ℕ),
      detectionRunSeq M φ attempt predict frameSkip classNames calls
          (some ModelSlot.placeholder) =
        Except.ok (calls.map fun _ => [], some ModelSlot.placeholder, 0) := by
  intro calls
  induction calls with
  | nil => rfl
  | cons c cs ih =>
    rw [detectionRunSeq,
      detectionRun_placeholder M φ attempt predict frameSkip classNames c.1 c.2]
    simp [ih]

/-- C4: when the model load fails (`attempt` is an error), every call of
`DetectionStage.run` over a whole run returns the empty detection list and
never raises, and the load-failure warning is logged exactly once for the
run — on the first detection-frame call — rather than on every call. -/
theorem detector_load_failure_degrades (M φ : Type) (err : String)
    (predict : M → φ → List RawBox) (frameSkip : ℕ) (classNames : List String) :
    ∀ calls : List (φ × ℕ),
      detectionRunSeq M φ (Except.error err) predict frameSkip classNames calls none =
        Except.ok (calls.map fun _ => [],
          (if calls.any fun c => c.2 % frameSkip == 0 then
            some ModelSlot.placeholder else none),
          (if calls.any fun c => c.2 % frameSkip == 0 then 1 else 0)) := by
  intro calls
  induction calls with
  | nil => rfl
  | cons c cs ih =>
    by_cases hdf : c.2 % frameSkip = 0
    · have h1 : detectionRun M φ (Except.error err) predict frameSkip classNames c.1 c.2 none =
          Except.ok ([], some ModelSlot.placeholder, 1) := by
        unfold detectionRun
        rw [if_neg (by simpa using hdf)]
        rfl
      rw [detectionRunSeq, h1]
      simp [detectionRunSeq_placeholder M φ (Except.error err) predict frameSkip classNames,
        List.any_cons, hdf]
    · have h1 : detectionRun M φ (Except.error err) predict frameSkip classNames c.1 c.2 none =
          Except.ok ([], none, 0) := by
        unfold detectionRun
        rw [if_pos (by simpa using hdf)]
      rw [detectionRunSeq, h1]
      have hc : (c.2 % frameSkip == 0) = false := by simpa using hdf
      rw [List.any_cons, hc, Bool.false_or]
      simp [ih]

/-- C5: if the calibration load, the zones load, or the video open fails,
`pipeline.run` raises before the frame loop: the call's outcome is an
error and the loop state is untouched — no frame was read, no stage was
invoked (no per-frame trace exists), and no event, CSV row or summary was
produced.  The loaders are modelled from the spec (`file_io` is not in the
sources): a bad or missing calibration or zones file makes the load raise. -/
theorem fatal_preload_failure_aborts (φ S C Z : Type)
    (calib : Except String C) (zones : Except String Z)
    (video : Except String (VideoInfo φ)) (P : Stages φ S) (s0 : S)
    (frameSkip : ℕ) (startTime endTime : ℚ)
    (h : (∃ e, calib = Except.error e) ∨ (∃ e, zones = Except.error e) ∨
      (∃ e, video = Except.error e)) :
    (∃ msg, (pipelineRun φ S C Z calib zones video P s0 frameSkip
        startTime endTime).1 = Except.error msg) ∧
    (pipelineRun φ S C Z calib zones video P s0 frameSkip
        startTime endTime).2 = initState S s0 := by
  obtain ⟨e, he⟩ | ⟨e, he⟩ | ⟨e, he⟩ := h
  · rw [he]
    exact ⟨⟨e, rfl⟩, rfl⟩
  · cases calib with
    | error e' => exact ⟨⟨e', rfl⟩, rfl⟩
    | ok c =>
      rw [he]
      exact ⟨⟨e, rfl⟩, rfl⟩
  · cases calib with
    | error e' => exact ⟨⟨e', rfl⟩, rfl⟩
    | ok c =>
      cases zones with
      | error e' => exact ⟨⟨e', rfl⟩, rfl⟩
      | ok z =>
        rw [he]
        exact ⟨⟨e, rfl⟩, rfl⟩

/-- C5 (witness): a run whose calibration file is bad aborts with an error
and produces nothing. -/
theorem fatal_preload_failure_aborts_w :
    (∃ msg, (pipelineRun Unit Unit Unit Unit (Except.error "bad calibration")
        (Except.ok ()) (Except.ok ⟨30, []⟩)
        ⟨fun _ _ s => ([], s), fun _ _ _ s => ([], s),
          fun _ _ _ s => (([], []), s), fun _ _ _ _ s => (([], []), s)⟩
        () 5 0 0).1 = Except.error msg) ∧
    (pipelineRun Unit Unit Unit Unit (Except.error "bad calibration")
        (Except.ok ()) (Except.ok ⟨30, []⟩)
        ⟨fun _ _ s => ([], s), fun _ _ _ s => ([], s),
          fun _ _ _ s => (([], []), s), fun _ _ _ _ s => (([], []), s)⟩
        () 5 0 0).2 = initState Unit () :=
  fatal_preload_failure_aborts Unit Unit Unit Unit (Except.error "bad calibration")
    (Except.ok ()) (Except.ok ⟨30, []⟩)
    ⟨fun _ _ s => ([], s), fun _ _ _ s => ([], s),
      fun _ _ _ s => (([], []), s), fun _ _ _ _ s => (([], []), s)⟩
    () 5 0 0 (Or.inl ⟨"bad calibration", rfl⟩)

/-- C7: the pipeline is deterministic on its inputs — the wall clock (the
only environment input besides the video, calibration, zones and stage
behaviour) influences nothing but the reported duration, so two runs on
the same inputs produce the identical loop state (event log, CSV rows,
stats, traces) and identical summary counters. -/
theorem run_deterministic (φ S C Z : Type)
    (calib : Except String C) (zones : Except String Z)
    (video : Except String (VideoInfo φ)) (P : Stages φ S) (s0 : S)
    (frameSkip : ℕ) (t1 t1' t2 t2' : ℚ) :
    (pipelineRun φ S C Z calib zones video P s0 frameSkip t1 t1').2 =
      (pipelineRun φ S C Z calib zones video P s0 frameSkip t2 t2').2 ∧
    (pipelineRun φ S C Z calib zones video P s0 frameSkip t1 t1').1.map
        summaryCounters =
      (pipelineRun φ S C Z calib zones video P s0 frameSkip t2 t2').1.map
        summaryCounters := by
  cases calib with
  | error e => exact ⟨rfl, rfl⟩
  | ok c =>
    cases zones with
    | error e => exact ⟨rfl, rfl⟩
    | ok z =>
      cases video with
      | error e => exact ⟨rfl, rfl⟩
      | ok v => exact ⟨rfl, rfl⟩

/-- A stage set whose spatial stage raises on every call; the other stages
succeed and return empty results. -/
def stagesBoom : StagesE Unit Unit :=
  ⟨fun _ _ s => Except.ok ([], s),
    fun _ _ _ s => Except.ok ([], s),
    fun _ _ _ _ => Except.error "boom",
    fun _ _ _ _ s => Except.ok (([], []), s)⟩

/-- C3 (counterexample): on a two-frame video whose spatial stage raises on
frame 0, the frame loop does not catch the exception and does not continue
— the run aborts with the raw exception, zero frames complete, and frame 1
is never reached, contradicting the claim that a single frame's stage
failure is caught at the orchestrator boundary and only that frame is
skipped. -/
theorem stage_exception_escapes_cex :
    (runLoopE Unit Unit stagesBoom 1 30 [(), ()] (initState Unit ())).2 =
        some "boom" ∧
    (runLoopE Unit Unit stagesBoom 1 30 [(), ()] (initState Unit ())).1.nextIndex = 0 ∧
    (runLoopE Unit Unit stagesBoom 1 30 [(), ()]
        (initState Unit ())).1.traces.length = 0 := by
  refine ⟨rfl, rfl, rfl⟩

/-- C3 (amended): a stage exception raised during a frame's processing is
not caught in the per-frame loop; it immediately aborts the loop — no
matter how many frames remain, none of them is processed — and the raw
exception propagates out of `run` together with the loop state already
written. -/
theorem stage_exception_aborts_loop (φ S : Type) (P : StagesE φ S)
    (frameSkip : ℕ) (fps : ℚ) (f : φ) (fs : List φ) (st st' : RunState S)
    (e : String)
    (h : processFrameE φ S P frameSkip fps st f = (st', some e)) :
    runLoopE φ S P frameSkip fps (f :: fs) st = (st', some e) := by
  rw [runLoopE, h]

/-- C3 (witness): the amended theorem at the concrete raising stage set —
the exception on frame 0 aborts the whole two-frame loop. -/
theorem stage_exception_aborts_loop_w :
    runLoopE Unit Unit stagesBoom 1 30 [(), ()] (initState Unit ()) =
      (initState Unit (), some "boom") :=
  stage_exception_aborts_loop Unit Unit stagesBoom 1 30 () [()]
    (initState Unit ()) (initState Unit ()) "boom" rfl

/-- The object-log rows that a list of frame traces induces: one row per
(frame, final-stage track), in frame order. -/
def rowsOfTraces (ts : List FrameTrace) : List CsvRow :=
  ts.flatMap fun t => t.vlmTracks.map (csvRow t.index)

theorem processFrame_traces_shape (φ S : Type) (P : Stages φ S) (k : ℕ) (q : ℚ)
    (st : RunState S) (f : φ) :
    ∃ d t sp v,
      d = detPhase φ S P k st f st.nextIndex ∧
      t = trackPhase φ S P d st.lastTracks f st.nextIndex ∧
      sp = P.spatial t.tracks st.nextIndex ((st.nextIndex : ℚ) / q) t.s ∧
      v = P.vlm sp.1.1 f st.nextIndex sp.1.2 sp.2 ∧
      (processFrame φ S P k q st f).traces = st.traces ++
        [⟨st.nextIndex, d.invoked, t.invoked, d.dets, t.tracks,
          st.lastDetections, st.lastTracks, sp.1.2, v.1.2, v.1.1⟩] ∧
      (processFrame φ S P k q st f).rows = st.rows ++ v.1.1.map (csvRow st.nextIndex) ∧
      (processFrame φ S P k q st f).nextIndex = st.nextIndex + 1 := by
  refine ⟨_, _, _, _, rfl, rfl, rfl, rfl, rfl, rfl, rfl⟩

/-- C2: over any run of the frame loop, the detector is invoked on exactly
the frames whose index is divisible by `frame_skip`; on every skipped
frame the `detections` value handed to the tracking phase is the
`last_detections` cache as of entry to that frame; whenever the tracker is
not invoked the track set fed to the spatial stage is the `last_tracks`
cache as of entry; and the object log consists of exactly one row per
(frame, final-stage track) — every frame contributes one row for each of
its final tracks. -/
theorem frame_skip_reuse_policy (φ S : Type) (P : Stages φ S) (frameSkip : ℕ)
    (fps : ℚ) (fs : List φ) (s0 : S) (_hk : 0 < frameSkip) :
    (∀ t ∈ (runLoop φ S P frameSkip fps fs (initState S s0)).traces,
      (t.detectorInvoked = true ↔ t.index % frameSkip = 0) ∧
      (t.index % frameSkip ≠ 0 → t.detectionsUsed = t.cacheDetBefore) ∧
      (t.trackerInvoked = false → t.tracksUsed = t.cacheTracksBefore)) ∧
    (runLoop φ S P frameSkip fps fs (initState S s0)).rows =
      rowsOfTraces (runLoop φ S P frameSkip fps fs (initState S s0)).traces ∧
    (runLoop φ S P frameSkip fps fs (initState S s0)).traces.map
        FrameTrace.index = List.range fs.length := by
  have key : ∀ st : RunState S,
      ((∀ t ∈ st.traces,
        (t.detectorInvoked = true ↔ t.index % frameSkip = 0) ∧
        (t.index % frameSkip ≠ 0 → t.detectionsUsed = t.cacheDetBefore) ∧
        (t.trackerInvoked = false → t.tracksUsed = t.cacheTracksBefore)) ∧
       st.rows = rowsOfTraces st.traces ∧
       st.traces.map FrameTrace.index = List.range st.nextIndex) →
      ((∀ t ∈ (runLoop φ S P frameSkip fps fs st).traces,
        (t.detectorInvoked = true ↔ t.index % frameSkip = 0) ∧
        (t.index % frameSkip ≠ 0 → t.detectionsUsed = t.cacheDetBefore) ∧
        (t.trackerInvoked = false → t.tracksUsed = t.cacheTracksBefore)) ∧
       (runLoop φ S P frameSkip fps fs st).rows =
         rowsOfTraces (runLoop φ S P frameSkip fps fs st).traces ∧
       (runLoop φ S P frameSkip fps fs st).traces.map FrameTrace.index =
         List.range (runLoop φ S P frameSkip fps fs st).nextIndex) := by
    refine runLoop_inv φ S P frameSkip fps _ ?_ fs
    intro st f hInv
    obtain ⟨d, t, sp, v, hd, ht, hsp, hv, htr, hrw, hni⟩ :=
      processFrame_traces_shape φ S P frameSkip fps st f
    refine ⟨?_, ?_, ?_⟩
    · intro tr htr'
      rw [htr] at htr'
      rcases List.mem_append.mp htr' with hmem | hmem
      · exact hInv.1 tr hmem
      · have heq : tr = ⟨st.nextIndex, d.invoked, t.invoked, d.dets, t.tracks,
            st.lastDetections, st.lastTracks, sp.1.2, v.1.2, v.1.1⟩ := by
          simpa using hmem
        subst heq
        refine ⟨?_, ?_, ?_⟩
        · by_cases hdiv : st.nextIndex % frameSkip = 0 <;>
            simp [hd, detPhase, hdiv]
        · intro hskip
          simp only [hd, detPhase, if_neg hskip]
        · by_cases hemp : d.dets.isEmpty <;>
            simp [ht, trackPhase, hemp]
    · rw [htr, hrw, hInv.2.1]
      simp [rowsOfTraces]
    · rw [htr, hni]
      simp [hInv.2.2, List.range_succ]
  have base := key (initState S s0) (by
    refine ⟨?_, rfl, rfl⟩
    intro t ht
    simp [initState] at ht)
  refine ⟨base.1, base.2.1, ?_⟩
  rw [base.2.2, runLoop_nextIndex]
  simp [initState]

/-- C2 (witness): the reuse-policy theorem at a concrete run (two frames,
`frame_skip = 2`, constant stages). -/
theorem frame_skip_reuse_policy_w :
    (0 < 2) ∧
    ((runLoop Unit Unit
        ⟨fun _ _ s => ([⟨0, "person", (0, 0, 1, 1), 1⟩], s),
          fun _ _ _ s => ([], s),
          fun trs _ _ s => ((trs, []), s),
          fun trs _ _ _ s => ((trs, []), s)⟩
        2 30 [(), ()] (initState Unit ())).traces.map
          FrameTrace.index = List.range 2) :=
  ⟨by decide,
    (frame_skip_reuse_policy Unit Unit
      ⟨fun _ _ s => ([⟨0, "person", (0, 0, 1, 1), 1⟩], s),
        fun _ _ _ s => ([], s),
        fun trs _ _ s => ((trs, []), s),
        fun trs _ _ _ s => ((trs, []), s)⟩
      2 30 [(), ()] () (by decide)).2.2⟩

/-- A stage set whose detector finds one object on frame 0 and nothing on
any later frame, with a tracker that always reports one track. -/
def cex9Stages : Stages Unit Unit :=
  ⟨fun _ i s => (if i = 0 then [⟨0, "person", (0, 0, 1, 1), 1⟩] else [], s),
    fun _ _ _ s =>
      ([⟨some "1", some "person", some (0, 0, 1, 1), none, none, none, none,
        none, none, none⟩], s),
    fun trs _ _ s => ((trs, []), s),
    fun trs _ _ _ s => ((trs, []), s)⟩

/-- C9 (counterexample): with `frame_skip = 1`, a detector that returns one
detection on frame 0 and an empty list on frame 1, the cache stays
non-empty, but on frame 1 — a detection frame whose fresh result is empty
— the tracker is not invoked at all (the `if detections:` guard uses the
fresh empty local, not the cache), contradicting the claim that the
tracker is invoked with a non-empty detection list on every subsequent
frame. -/
theorem tracker_skipped_on_empty_cex :
    ((runLoop Unit Unit cex9Stages 1 30 [(), ()] (initState Unit ())).traces.map
        fun t => t.trackerInvoked) = [true, false] ∧
    (runLoop Unit Unit cex9Stages 1 30 [(), ()] (initState Unit ())).lastDetections =
      [⟨0, "person", (0, 0, 1, 1), 1⟩] := by
  exact ⟨rfl, rfl⟩

/-- C9 (amended): the `last_detections` cache is only overwritten by
non-empty results, so once non-empty it never becomes empty again for the
rest of the run; and whenever the tracker IS invoked, its input detection
list is non-empty.  However, on a detection frame whose fresh result is
empty the `detections` local is that empty fresh result, so the tracker is
skipped for that frame (the previous track set is reused) rather than
being fed the cache. -/
theorem detection_cache_monotone (φ S : Type) (P : Stages φ S) (frameSkip : ℕ)
    (fps : ℚ) (fs : List φ) (s0 : S) :
    (∀ st : RunState S, st.lastDetections ≠ [] →
      (runLoop φ S P frameSkip fps fs st).lastDetections ≠ []) ∧
    (∀ t ∈ (runLoop φ S P frameSkip fps fs (initState S s0)).traces,
      t.trackerInvoked = true → t.detectionsUsed ≠ []) := by
  constructor
  · intro st hst
    refine runLoop_inv φ S P frameSkip fps (fun st => st.lastDetections ≠ [])
      ?_ fs st hst
    intro st' f h
    by_cases hdiv : st'.nextIndex % frameSkip = 0
    · by_cases hemp : (P.detect f st'.nextIndex st'.stageState).1.isEmpty
      · have he : (processFrame φ S P frameSkip fps st' f).lastDetections =
            st'.lastDetections := by
          simp [processFrame, detPhase, hdiv, hemp]
        rw [he]; exact h
      · have he : (processFrame φ S P frameSkip fps st' f).lastDetections =
            (P.detect f st'.nextIndex st'.stageState).1 := by
          simp [processFrame, detPhase, hdiv, hemp]
        rw [he]
        intro hnil
        rw [hnil] at hemp
        simp at hemp
    · have he : (processFrame φ S P frameSkip fps st' f).lastDetections =
          st'.lastDetections := by
        simp [processFrame, detPhase, hdiv]
      rw [he]; exact h
  · refine runLoop_inv φ S P frameSkip fps
      (fun st => ∀ t ∈ st.traces, t.trackerInvoked = true → t.detectionsUsed ≠ [])
      ?_ fs (initState S s0) (by intro t ht; simp [initState] at ht)
    intro st f hInv
    obtain ⟨d, t, sp, v, hd, ht, hsp, hv, htr, hrw, hni⟩ :=
      processFrame_traces_shape φ S P frameSkip fps st f
    intro tr htr'
    rw [htr] at htr'
    rcases List.mem_append.mp htr' with hmem | hmem
    · exact hInv tr hmem
    · have heq : tr = ⟨st.nextIndex, d.invoked, t.invoked, d.dets, t.tracks,
          st.lastDetections, st.lastTracks, sp.1.2, v.1.2, v.1.1⟩ := by
        simpa using hmem
      subst heq
      by_cases hemp : d.dets.isEmpty
      · simp [ht, trackPhase, hemp]
      · intro _ hnil
        have hnil' : d.dets = [] := hnil
        rw [hnil'] at hemp
        simp at hemp

/-- C9 (witness): the amended theorem's cache-monotonicity part evaluated
at a state whose cache already holds one detection. -/
theorem detection_cache_monotone_w :
    (runLoop Unit Unit cex9Stages 1 30 [()]
      { initState Unit () with
        lastDetections := [⟨0, "person", (0, 0, 1, 1), 1⟩] }).lastDetections ≠ [] :=
  (detection_cache_monotone Unit Unit cex9Stages 1 30 [()] ()).1
    { initState Unit () with
      lastDetections := [⟨0, "person", (0, 0, 1, 1), 1⟩] }
    (by simp)

theorem runLoop_rows_eq (φ S : Type) (P : Stages φ S) (k : ℕ) (q : ℚ)
    (fs : List φ) :
    ∀ st : RunState S, st.rows = rowsOfTraces st.traces →
      (runLoop φ S P k q fs st).rows =
        rowsOfTraces (runLoop φ S P k q fs st).traces := by
  intro st hst
  refine runLoop_inv φ S P k q (fun st => st.rows = rowsOfTraces st.traces)
    ?_ fs st hst
  intro st' f h
  obtain ⟨d, t, sp, v, hd, ht, hsp, hv, htr, hrw, hni⟩ :=
    processFrame_traces_shape φ S P k q st' f
  rw [htr, hrw, h]
  simp [rowsOfTraces]

/-- A stage set whose tracker reports one track that the (absent)
classifier never annotates: its compliance fields stay unset. -/
def cex6Stages : Stages Unit Unit :=
  ⟨fun _ _ s => ([⟨0, "person", (0, 0, 1, 1), 1⟩], s),
    fun _ _ _ s =>
      ([⟨some "7", some "person", some (0, 0, 2, 2), none, none, none, none,
        none, none, none⟩], s),
    fun trs _ _ s => ((trs, []), s),
    fun trs _ _ _ s => ((trs, []), s)⟩

/-- C6 (counterexample): a one-frame run whose final-stage track carries no
compliance keys produces exactly one object-log row, but its compliance
flag reads `NA` (the `tr.get("hardhat", "NA")` default of pipeline.py line
129), not `unknown` as the claim states. -/
theorem object_log_na_flag_cex :
    ((runLoop Unit Unit cex6Stages 1 30 [()] (initState Unit ())).rows.map
        fun r => r.hardhat) = ["NA"] ∧
    ((runLoop Unit Unit cex6Stages 1 30 [()] (initState Unit ())).traces.flatMap
        fun t => t.vlmTracks.map Track.hardhat) = [none] ∧
    "NA" ≠ "unknown" := by
  exact ⟨rfl, rfl, by decide⟩

/-- C6 (amended): for every processed frame and every track produced by the
final (classifier) stage on that frame, exactly one object-log row is
written with the frame index, object id, class, pixel bbox, real-world
position/velocity, zone membership and compliance flags — but an
unclassified track's compliance flags read `NA` (the orchestrator's
default), not `unknown`; they are never omitted. -/
theorem object_log_rows_default_na (φ S : Type) (P : Stages φ S) (k : ℕ)
    (q : ℚ) (fs : List φ) (s0 : S) :
    (runLoop φ S P k q fs (initState S s0)).rows =
      rowsOfTraces (runLoop φ S P k q fs (initState S s0)).traces ∧
    (∀ i tr, (csvRow i tr).frame = i ∧
      (csvRow i tr).hardhat = tr.hardhat.getD "NA" ∧
      (csvRow i tr).vest = tr.vest.getD "NA" ∧
      (csvRow i tr).objectId = tr.objectId.getD "" ∧
      (csvRow i tr).inZone = tr.inZone.getD "") := by
  refine ⟨runLoop_rows_eq φ S P k q fs (initState S s0) rfl, ?_⟩
  intro i tr
  exact ⟨rfl, rfl, rfl, rfl, rfl⟩

/-- Number of events of a given type in an event list. -/
def countType (es : List Event) (t : String) : ℕ :=
  (es.filter fun e => e.etype == t).length

/-- Number of `zone_entry` events whose zone is the given name. -/
def countZoneEntry (es : List Event) (z : String) : ℕ :=
  (es.filter fun e => e.etype == "zone_entry" && e.zone == some z).length

/-- Number of `zone_entry` events that the tallying code books under the
given key, reading the zone with the `"unknown"` default of line 101. -/
def countZoneEntryD (es : List Event) (z : String) : ℕ :=
  (es.filter fun e => e.etype == "zone_entry" && e.zone.getD "unknown" == z).length

theorem countType_append (a b : List Event) (t : String) :
    countType (a ++ b) t = countType a t + countType b t := by
  simp [countType, List.filter_append]

theorem countZoneEntry_append (a b : List Event) (z : String) :
    countZoneEntry (a ++ b) z = countZoneEntry a z + countZoneEntry b z := by
  simp [countZoneEntry, List.filter_append]

theorem countType_eq_zero (es : List Event) (t : String)
    (h : ∀ e ∈ es, e.etype ≠ t) : countType es t = 0 := by
  rw [countType, List.length_eq_zero, List.filter_eq_nil]
  intro e he
  simp [h e he]

theorem countZoneEntry_eq_zero (es : List Event) (z : String)
    (h : ∀ e ∈ es, e.etype ≠ "zone_entry") : countZoneEntry es z = 0 := by
  rw [countZoneEntry, List.length_eq_zero, List.filter_eq_nil]
  intro e he
  simp [h e he]

theorem countZoneEntryD_eq (es : List Event) (z : String)
    (h : ∀ e ∈ es, e.etype = "zone_entry" → (e.zone).isSome) :
    countZoneEntryD es z = countZoneEntry es z := by
  induction es with
  | nil => rfl
  | cons e es ih =>
    have ih' := ih fun e' he' => h e' (List.mem_cons_of_mem _ he')
    by_cases h1 : e.etype = "zone_entry"
    · obtain ⟨w, hw⟩ := Option.isSome_iff_exists.mp (h e (List.mem_cons_self _ _) h1)
      simp [countZoneEntryD, countZoneEntry, List.filter_cons, h1, hw] at ih' ⊢
      by_cases h2 : w = z <;> simp [h2, ih']
    · simp [countZoneEntryD, countZoneEntry, List.filter_cons, h1] at ih' ⊢
      exact ih'

theorem foldl_spatial_prox (es : List Event) : ∀ s : Stats,
    (es.foldl updStatsSpatial s).proximityWarnings +
      (es.foldl updStatsSpatial s).proximityCritical =
      s.proximityWarnings + s.proximityCritical +
        countType es "proximity_alert" := by
  induction es with
  | nil => intro s; simp [countType]
  | cons e es ih =>
    intro s
    rw [List.foldl_cons, ih]
    by_cases h1 : e.etype = "proximity_alert"
    · by_cases h2 : e.severity = some "warning" <;>
        simp [updStatsSpatial, h1, h2, countType, List.filter_cons] <;> omega
    · by_cases h3 : e.etype = "ttc_warning" <;>
        by_cases h4 : e.etype = "zone_entry" <;>
        simp [updStatsSpatial, h1, h3, h4, countType, List.filter_cons] <;> omega

theorem foldl_spatial_ttc (es : List Event) : ∀ s : Stats,
    (es.foldl updStatsSpatial s).ttcWarnings =
      s.ttcWarnings + countType es "ttc_warning" := by
  induction es with
  | nil => intro s; simp [countType]
  | cons e es ih =>
    intro s
    rw [List.foldl_cons, ih]
    by_cases h1 : e.etype = "proximity_alert"
    · by_cases h2 : e.severity = some "warning" <;>
        simp [updStatsSpatial, h1, h2, countType, List.filter_cons] <;> omega
    · by_cases h3 : e.etype = "ttc_warning" <;>
        by_cases h4 : e.etype = "zone_entry" <;>
        simp [updStatsSpatial, h1, h3, h4, countType, List.filter_cons] <;> omega

theorem foldl_spatial_zone (es : List Event) : ∀ (s : Stats) (z : String),
    (es.foldl updStatsSpatial s).zoneViolations z =
      s.zoneViolations z + countZoneEntryD es z := by
  induction es with
  | nil => intro s z; simp [countZoneEntryD]
  | cons e es ih =>
    intro s z
    rw [List.foldl_cons, ih]
    by_cases h1 : e.etype = "proximity_alert"
    · by_cases h2 : e.severity = some "warning" <;>
        simp [updStatsSpatial, h1, h2, countZoneEntryD, List.filter_cons] <;> omega
    · by_cases h3 : e.etype = "ttc_warning"
      · simp [updStatsSpatial, h1, h3, countZoneEntryD, List.filter_cons]
      · by_cases h4 : e.etype = "zone_entry"
        · by_cases h5 : e.zone.getD "unknown" = z
          · simp [updStatsSpatial, h1, h3, h4, h5, countZoneEntryD,
              List.filter_cons]
            omega
          · simp [updStatsSpatial, h1, h3, h4, h5, Ne.symm h5, countZoneEntryD,
              List.filter_cons]
        · simp [updStatsSpatial, h1, h3, h4, countZoneEntryD, List.filter_cons]

theorem foldl_ppe_preserves (es : List Event) : ∀ s : Stats,
    (es.foldl updStatsPpe s).proximityWarnings = s.proximityWarnings ∧
    (es.foldl updStatsPpe s).proximityCritical = s.proximityCritical ∧
    (es.foldl updStatsPpe s).ttcWarnings = s.ttcWarnings ∧
    ∀ z, (es.foldl updStatsPpe s).zoneViolations z = s.zoneViolations z := by
  induction es with
  | nil => intro s; exact ⟨rfl, rfl, rfl, fun z => rfl⟩
  | cons e es ih =>
    intro s
    rw [List.foldl_cons]
    obtain ⟨a, b, c, d⟩ := ih (updStatsPpe s e)
    exact ⟨by rw [a]; rfl, by rw [b]; rfl, by rw [c]; rfl,
      fun z => by rw [d z]; rfl⟩

theorem processFrame_stats_shape (φ S : Type) (P : Stages φ S) (k : ℕ) (q : ℚ)
    (st : RunState S) (f : φ) :
    ∃ d t sp v,
      d = detPhase φ S P k st f st.nextIndex ∧
      t = trackPhase φ S P d st.lastTracks f st.nextIndex ∧
      sp = P.spatial t.tracks st.nextIndex ((st.nextIndex : ℚ) / q) t.s ∧
      v = P.vlm sp.1.1 f st.nextIndex sp.1.2 sp.2 ∧
      (processFrame φ S P k q st f).events = st.events ++ sp.1.2 ++ v.1.2 ∧
      (processFrame φ S P k q st f).stats =
        v.1.2.foldl updStatsPpe (sp.1.2.foldl updStatsSpatial st.stats) := by
  exact ⟨_, _, _, _, rfl, rfl, rfl, rfl, rfl, rfl⟩

/-- C1: for every run of the frame loop, the final summary counters equal
the tallies of the corresponding events in the event log:
`proximity_warnings + proximity_critical` is the number of
`proximity_alert` events, `ttc_warnings` the number of `ttc_warning`
events, and `zone_violations[z]` the number of `zone_entry` events with
zone `z` — the stats are derived exclusively by tallying the same events
that are appended to the log.  The two hypotheses are modelled from the
spec for the stages missing from the sources: the VLM stage emits only
`ppe_observation` events (never a spatial event type), and every
`zone_entry` event carries its zone. -/
theorem summary_counters_match_event_log (φ S : Type) (P : Stages φ S)
    (frameSkip : ℕ) (fps : ℚ) (fs : List φ) (s0 : S)
    (Hvlm : ∀ trs f i evs s, ∀ e ∈ (P.vlm trs f i evs s).1.2,
      e.etype ≠ "proximity_alert" ∧ e.etype ≠ "ttc_warning" ∧
      e.etype ≠ "zone_entry")
    (Hzone : ∀ trs i t s, ∀ e ∈ (P.spatial trs i t s).1.2,
      e.etype = "zone_entry" → (e.zone).isSome) :
    (runLoop φ S P frameSkip fps fs (initState S s0)).stats.proximityWarnings +
      (runLoop φ S P frameSkip fps fs (initState S s0)).stats.proximityCritical =
      countType (runLoop φ S P frameSkip fps fs (initState S s0)).events
        "proximity_alert" ∧
    (runLoop φ S P frameSkip fps fs (initState S s0)).stats.ttcWarnings =
      countType (runLoop φ S P frameSkip fps fs (initState S s0)).events
        "ttc_warning" ∧
    ∀ z, (runLoop φ S P frameSkip fps fs (initState S s0)).stats.zoneViolations z =
      countZoneEntry (runLoop φ S P frameSkip fps fs (initState S s0)).events z := by
  refine runLoop_inv φ S P frameSkip fps
    (fun st =>
      st.stats.proximityWarnings + st.stats.proximityCritical =
        countType st.events "proximity_alert" ∧
      st.stats.ttcWarnings = countType st.events "ttc_warning" ∧
      ∀ z, st.stats.zoneViolations z = countZoneEntry st.events z)
    ?_ fs (initState S s0) ⟨rfl, rfl, fun z => rfl⟩
  intro st f hInv
  obtain ⟨d, t, sp, v, hd, ht, hsp, hv, hev, hstats⟩ :=
    processFrame_stats_shape φ S P frameSkip fps st f
  have hppe : ∀ e ∈ v.1.2, e.etype ≠ "proximity_alert" ∧
      e.etype ≠ "ttc_warning" ∧ e.etype ≠ "zone_entry" := by
    rw [hv]; intro e he; exact Hvlm _ _ _ _ _ e he
  have hzo : ∀ e ∈ sp.1.2, e.etype = "zone_entry" → (e.zone).isSome := by
    rw [hsp]; intro e he; exact Hzone _ _ _ _ e he
  obtain ⟨pp1, pp2, pp3, pp4⟩ :=
    foldl_ppe_preserves v.1.2 (sp.1.2.foldl updStatsSpatial st.stats)
  refine ⟨?_, ?_, ?_⟩
  · rw [hstats, hev, pp1, pp2, foldl_spatial_prox, countType_append,
      countType_append,
      countType_eq_zero v.1.2 "proximity_alert" fun e he => (hppe e he).1,
      hInv.1]
    omega
  · rw [hstats, hev, pp3, foldl_spatial_ttc, countType_append, countType_append,
      countType_eq_zero v.1.2 "ttc_warning" fun e he => (hppe e he).2.1,
      hInv.2.1]
    omega
  · intro z
    rw [hstats, hev, pp4 z, foldl_spatial_zone, countZoneEntry_append,
      countZoneEntry_append,
      countZoneEntry_eq_zero v.1.2 z fun e he => (hppe e he).2.2,
      countZoneEntryD_eq sp.1.2 z hzo, hInv.2.2 z]
    omega

/-- A stage set for exercising the tallying invariant: the spatial stage
emits one warning-severity proximity alert and one `zone_entry` into zone
`pit` per frame, the VLM stage one `ppe_observation` per frame. -/
def w1Stages : Stages Unit Unit :=
  ⟨fun _ _ s => ([⟨0, "person", (0, 0, 1, 1), 1⟩], s),
    fun _ _ _ s => ([], s),
    fun _ i t s => (([],
      [⟨"proximity_alert", some "warning", none, none, none, i, t⟩,
        ⟨"zone_entry", none, some "pit", none, none, i, t⟩]), s),
    fun _ _ i _ s =>
      (([], [⟨"ppe_observation", none, none, some "YES", some "NO", i, 0⟩]), s)⟩

/-- C1 (witness): the tallying theorem at a concrete two-frame run. -/
theorem summary_counters_match_event_log_w :
    (runLoop Unit Unit w1Stages 1 30 [(), ()] (initState Unit ())).stats.proximityWarnings +
      (runLoop Unit Unit w1Stages 1 30 [(), ()] (initState Unit ())).stats.proximityCritical =
      countType (runLoop Unit Unit w1Stages 1 30 [(), ()] (initState Unit ())).events
        "proximity_alert" ∧
    (runLoop Unit Unit w1Stages 1 30 [(), ()] (initState Unit ())).stats.zoneViolations
        "pit" =
      countZoneEntry (runLoop Unit Unit w1Stages 1 30 [(), ()] (initState Unit ())).events
        "pit" := by
  have h := summary_counters_match_event_log Unit Unit w1Stages 1 30 [(), ()] ()
    (by
      intro trs f i evs s e he
      simp [w1Stages] at he
      subst he
      exact ⟨by simp, by simp, by simp⟩)
    (by
      intro trs i t s e he
      simp [w1Stages] at he
      rcases he with he | he
      · subst he
        intro hfalse
        simp at hfalse
      · subst he
        intro _
        rfl)
  exact ⟨h.1, h.2.2 "pit"⟩

theorem pairwise_le_of_const (l : List ℚ) (c : ℚ) (h : ∀ y ∈ l, y = c) :
    List.Pairwise (fun a b => a ≤ b) l := by
  induction l with
  | nil => exact List.Pairwise.nil
  | cons y ys ih =>
    refine List.Pairwise.cons ?_ (ih fun y' hy' => h y' (List.mem_cons_of_mem _ hy'))
    intro y' hy'
    rw [h y (List.mem_cons_self _ _), h y' (List.mem_cons_of_mem _ hy')]

theorem pairwise_le_append_const (l lnew : List ℚ) (c : ℚ)
    (hl : List.Pairwise (fun a b => a ≤ b) l)
    (hle : ∀ x ∈ l, x ≤ c) (hnew : ∀ y ∈ lnew, y = c) :
    List.Pairwise (fun a b => a ≤ b) (l ++ lnew) := by
  rw [List.pairwise_append]
  refine ⟨hl, pairwise_le_of_const lnew c hnew, ?_⟩
  intro a ha b hb
  rw [hnew b hb]
  exact hle a ha

theorem processFrame_events_shape (φ S : Type) (P : Stages φ S) (k : ℕ) (q : ℚ)
    (st : RunState S) (f : φ) :
    ∃ sp v,
      sp = P.spatial
        (trackPhase φ S P (detPhase φ S P k st f st.nextIndex)
          st.lastTracks f st.nextIndex).tracks
        st.nextIndex ((st.nextIndex : ℚ) / q)
        (trackPhase φ S P (detPhase φ S P k st f st.nextIndex)
          st.lastTracks f st.nextIndex).s ∧
      v = P.vlm sp.1.1 f st.nextIndex sp.1.2 sp.2 ∧
      (processFrame φ S P k q st f).events = st.events ++ sp.1.2 ++ v.1.2 ∧
      (processFrame φ S P k q st f).nextIndex = st.nextIndex + 1 := by
  exact ⟨_, _, rfl, rfl, rfl, rfl⟩

/-- C8: when every stage stamps its events with the orchestrator-supplied
frame index and timestamp (modelled from the spec for the stages missing
from the sources: every event carries the frame index and the timestamp
`frame_index / fps`), every event in the log carries the timestamp of its
frame, computed as `frame_index / fps`, and the timestamps of the log in
append order are non-decreasing. -/
theorem event_timestamps_nondecreasing (φ S : Type) (P : Stages φ S)
    (frameSkip : ℕ) (fps : ℚ) (fs : List φ) (s0 : S)
    (hfps : 0 < fps)
    (Hsp : ∀ trs i t s, ∀ e ∈ (P.spatial trs i t s).1.2, e.ts = t ∧ e.frame = i)
    (Hv : ∀ trs f i evs s, ∀ e ∈ (P.vlm trs f i evs s).1.2,
      e.ts = (i : ℚ) / fps ∧ e.frame = i) :
    (∀ e ∈ (runLoop φ S P frameSkip fps fs (initState S s0)).events,
      e.ts = (e.frame : ℚ) / fps) ∧
    List.Pairwise (fun a b => a ≤ b)
      ((runLoop φ S P frameSkip fps fs (initState S s0)).events.map Event.ts) := by
  have main : (∀ e ∈ (runLoop φ S P frameSkip fps fs (initState S s0)).events,
        e.ts = (e.frame : ℚ) / fps ∧
        e.frame < (runLoop φ S P frameSkip fps fs (initState S s0)).nextIndex) ∧
      List.Pairwise (fun a b => a ≤ b)
        ((runLoop φ S P frameSkip fps fs (initState S s0)).events.map Event.ts) := by
    refine runLoop_inv φ S P frameSkip fps
      (fun st =>
        (∀ e ∈ st.events, e.ts = (e.frame : ℚ) / fps ∧ e.frame < st.nextIndex) ∧
        List.Pairwise (fun a b => a ≤ b) (st.events.map Event.ts))
      ?_ fs (initState S s0)
      ⟨by intro e he; simp [initState] at he, by simp [initState]⟩
    intro st f hInv
    obtain ⟨sp, v, hsp, hv, hev, hni⟩ := processFrame_events_shape φ S P frameSkip fps st f
    have hspE : ∀ e ∈ sp.1.2,
        e.ts = (st.nextIndex : ℚ) / fps ∧ e.frame = st.nextIndex := by
      rw [hsp]; intro e he; exact Hsp _ _ _ _ e he
    have hvE : ∀ e ∈ v.1.2,
        e.ts = (st.nextIndex : ℚ) / fps ∧ e.frame = st.nextIndex := by
      rw [hv]; intro e he; exact Hv _ _ _ _ _ e he
    have hnewE : ∀ e ∈ sp.1.2 ++ v.1.2,
        e.ts = (st.nextIndex : ℚ) / fps ∧ e.frame = st.nextIndex := by
      intro e he
      rcases List.mem_append.mp he with h | h
      · exact hspE e h
      · exact hvE e h
    constructor
    · intro e he
      rw [hev, List.append_assoc] at he
      rw [hni]
      rcases List.mem_append.mp he with h | h
      · obtain ⟨h1, h2⟩ := hInv.1 e h
        exact ⟨h1, by omega⟩
      · obtain ⟨h1, h2⟩ := hnewE e h
        refine ⟨by rw [h1, h2], by omega⟩
    · rw [hev, List.append_assoc, List.map_append]
      apply pairwise_le_append_const _ _ ((st.nextIndex : ℚ) / fps)
      · exact hInv.2
      · intro x hx
        obtain ⟨e, he, hxe⟩ := List.mem_map.mp hx
        obtain ⟨h1, h2⟩ := hInv.1 e he
        rw [← hxe, h1]
        have hle : (e.frame : ℚ) ≤ (st.nextIndex : ℚ) := by
          exact_mod_cast Nat.le_of_lt h2
        exact (div_le_div_right hfps).mpr hle
      · intro y hy
        obtain ⟨e, he, hye⟩ := List.mem_map.mp hy
        rw [← hye, (hnewE e he).1]
  exact ⟨fun e he => (main.1 e he).1, main.2⟩

/-- A stage set that stamps every event with the frame index and the
timestamp handed down by the orchestrator (fps fixed at 30). -/
def w8Stages : Stages Unit Unit :=
  ⟨fun _ _ s => ([], s),
    fun _ _ _ s => ([], s),
    fun _ i t s => (([], [⟨"zone_entry", none, some "pit", none, none, i, t⟩]), s),
    fun _ _ i _ s =>
      (([], [⟨"ppe_observation", none, none, none, none, i, (i : ℚ) / 30⟩]), s)⟩

/-- C8 (witness): the timestamp theorem at a concrete two-frame run. -/
theorem event_timestamps_nondecreasing_w :
    (∀ e ∈ (runLoop Unit Unit w8Stages 1 30 [(), ()] (initState Unit ())).events,
      e.ts = (e.frame : ℚ) / 30) ∧
    List.Pairwise (fun a b => a ≤ b)
      ((runLoop Unit Unit w8Stages 1 30 [(), ()]
        (initState Unit ())).events.map Event.ts) :=
  event_timestamps_nondecreasing Unit Unit w8Stages 1 30 [(), ()] ()
    (by norm_num)
    (by
      intro trs i t s e he
      simp [w8Stages] at he
      subst he
      exact ⟨rfl, rfl⟩)
    (by
      intro trs f i evs s e he
      simp [w8Stages] at he
      subst he
      exact ⟨rfl, rfl⟩)
